import Mathlib

/-!
Verification of the animation layer of a personal portfolio page
(`script.js` plus two skill-card flip variants).

The JavaScript is shallowly embedded: DOM class lists become `Bool` flags
or lists of records, JavaScript numbers become `ℚ` (with `Option ℚ` where
NaN can arise), `parseInt` becomes a small decimal parser returning
`Option ℤ`, and the per-frame `requestAnimationFrame` loop of the stat
counter becomes a fuel-indexed recursion whose `none` result means the
animation is still running after that many frames.
-/

/-! ## Stat count-up animation (`animateStats.animateNumber`)

`const target = parseInt(element.getAttribute('data-target'));
 const duration = 2000;
 const step = target / (duration / 16);   // = target / 125
 let current = 0;
 const updateNumber = () => {
   current += step;
   if (current >= target) { element.textContent = target; }
   else { element.textContent = Math.floor(current);
          requestAnimationFrame(updateNumber); } };`

A missing attribute gives `parseInt(null) = NaN`; NaN is modelled by
`none`, and the JavaScript rules "NaN propagates through `+` and `/`" and
"`x >= y` is false when either side is NaN" are modelled explicitly. -/

/-- One decimal digit, as in the code points of '0'..'9'. -/
def digitVal (c : Char) : ℕ := c.toNat - 48

/-- Accumulate a decimal digit string left to right. -/
def parseDigits (cs : List Char) : ℕ := cs.foldl (fun n c => 10 * n + digitVal c) 0

/-- JavaScript `parseInt` in base 10: skip leading spaces, optional sign,
then the maximal run of leading digits; `none` (NaN) when no digit is read. -/
def parseIntStr (s : String) : Option ℤ :=
  let cs := s.toList.dropWhile (fun c => c = ' ')
  let signRest : ℤ × List Char :=
    match cs with
    | '-' :: rest => (-1, rest)
    | '+' :: rest => (1, rest)
    | _ => (1, cs)
  let ds := signRest.2.takeWhile Char.isDigit
  if ds = [] then none else some (signRest.1 * (parseDigits ds : ℤ))

/-- `parseInt(element.getAttribute('data-target'))`: an absent attribute
(`getAttribute` returns null) parses to NaN, as does a digit-free string. -/
def attrTarget (a : Option String) : Option ℤ := a.bind parseIntStr

/-- JavaScript `+` on numbers: NaN propagates. -/
def jsAdd : Option ℚ → Option ℚ → Option ℚ
  | some a, some b => some (a + b)
  | _, _ => none

/-- JavaScript `current >= target`: false whenever either side is NaN. -/
def jsGeTarget : Option ℚ → Option ℤ → Bool
  | some c, some t => decide ((t : ℚ) ≤ c)
  | _, _ => false

/-- `step = target / (2000 / 16)`, i.e. `target / 125`; NaN propagates. -/
def stepSize (target : Option ℤ) : Option ℚ := target.map fun t => (t : ℚ) / 125

/-- The `updateNumber` frame loop, indexed by a fuel bound on the number of
frames: `some t` means the loop reached its terminating branch and wrote the
target `t` into the element's text; `none` means it is still running after
`fuel` frames. -/
def countUpJS (target : Option ℤ) : ℕ → Option ℚ → Option ℤ
  | 0, _ => none
  | fuel + 1, current =>
    let c := jsAdd current (stepSize target)
    if jsGeTarget c target then target else countUpJS target fuel c

/-- Unfolding one frame of the loop on a non-NaN target and current value. -/
theorem countUpJS_step (t : ℤ) (fuel : ℕ) (c : ℚ) :
    countUpJS (some t) (fuel + 1) (some c)
      = if (t : ℚ) ≤ c + t / 125 then some t
        else countUpJS (some t) fuel (some (c + t / 125)) := by
  have h1 : countUpJS (some t) (fuel + 1) (some c)
      = if jsGeTarget (some (c + (t : ℚ) / 125)) (some t) then some t
        else countUpJS (some t) fuel (some (c + (t : ℚ) / 125)) := rfl
  have h2 : jsGeTarget (some (c + (t : ℚ) / 125)) (some t)
      = decide ((t : ℚ) ≤ c + t / 125) := rfl
  rw [h1, h2]
  by_cases h : (t : ℚ) ≤ c + t / 125
  · rw [if_pos (by simpa using h), if_pos h]
  · rw [if_neg (by simpa using h), if_neg h]

/-- With a NaN target the comparison never succeeds, so the loop never
terminates, whatever the fuel and the current value. -/
theorem countUpJS_none (fuel : ℕ) (c : Option ℚ) : countUpJS none fuel c = none := by
  induction fuel generalizing c with
  | zero => rfl
  | succ n ih =>
    have h1 : countUpJS none (n + 1) c
        = if jsGeTarget (jsAdd c (stepSize none)) none then none
          else countUpJS none n (jsAdd c (stepSize none)) := rfl
    have hadd : jsAdd c (stepSize none) = none := by cases c <;> rfl
    rw [h1, hadd]
    have hge : jsGeTarget none none = false := rfl
    rw [hge]
    simpa using ih none

/-- After `125 - k` frames the running value is `(125 - k) * t / 125`; from
there, `k` more frames (`1 ≤ k ≤ 125`) finish the count-up on target `t > 0`. -/
theorem countUpJS_pos_aux (k : ℕ) (hk1 : 1 ≤ k) (hk2 : k ≤ 125) (t : ℤ) (ht : 0 < t) :
    countUpJS (some t) k (some ((125 - (k : ℚ)) * t / 125)) = some t := by
  induction k with
  | zero => omega
  | succ n ih =>
    rw [countUpJS_step]
    rcases Nat.eq_zero_or_pos n with hn | hn
    · subst hn
      have harith : (125 - ((0 + 1 : ℕ) : ℚ)) * t / 125 + (t : ℚ) / 125 = t := by
        push_cast
        ring
      rw [if_pos (le_of_eq harith.symm)]
    · have heq : (125 - ((n + 1 : ℕ) : ℚ)) * t / 125 + (t : ℚ) / 125
          = (125 - (n : ℚ)) * t / 125 := by
        push_cast
        ring
      rw [heq]
      have htq : (0 : ℚ) < t := by exact_mod_cast ht
      have hnq : (1 : ℚ) ≤ (n : ℚ) := by exact_mod_cast hn
      have hlt : (125 - (n : ℚ)) * t / 125 < t := by
        rw [div_lt_iff₀ (by norm_num : (0 : ℚ) < 125)]
        nlinarith
      rw [if_neg (not_le.mpr hlt)]
      exact ih hn (by omega)

/-- C1: for every integer target, the count-up animation terminates within
125 frames and the final displayed text is exactly the target integer. -/
theorem countUp_terminates_exact (t : ℤ) : countUpJS (some t) 125 (some 0) = some t := by
  rcases le_or_lt t 0 with ht | ht
  · have h125 : (125 : ℕ) = 124 + 1 := rfl
    rw [h125, countUpJS_step]
    have htq : (t : ℚ) ≤ 0 + t / 125 := by
      rw [zero_add, le_div_iff₀ (by norm_num : (0 : ℚ) < 125)]
      have hq : (t : ℚ) ≤ 0 := by exact_mod_cast ht
      nlinarith
    rw [if_pos htq]
  · have h := countUpJS_pos_aux 125 (by norm_num) (le_refl 125) t ht
    have harith : (125 - ((125 : ℕ) : ℚ)) * t / 125 = 0 := by
      push_cast
      ring
    rw [harith] at h
    exact h

/-- C8 (amended): when `data-target` is absent or not parseable, `parseInt`
yields NaN, the comparison `current >= target` is always false, and the
count-up loop never reaches its terminating branch, for any number of frames
and any current value: there is no zero-target fallback. -/
theorem countUp_no_fallback (a : Option String) (h : attrTarget a = none)
    (fuel : ℕ) (c : ℚ) : countUpJS (attrTarget a) fuel (some c) = none := by
  rw [h]
  exact countUpJS_none fuel (some c)

theorem countUp_no_fallback_witness :
    attrTarget none = none ∧ countUpJS (attrTarget none) 7 (some 0) = none :=
  ⟨rfl, countUp_no_fallback none rfl 7 0⟩

/-- C8 counterexample: with the attribute unparseable (`"abc"`), after 200
frames the animation still has not terminated, whereas the claimed zero-target
fallback would have terminated at once (a zero target finishes in one frame). -/
theorem countUp_no_fallback_cex :
    countUpJS (attrTarget (some "abc")) 200 (some 0) = none
      ∧ countUpJS (some 0) 200 (some 0) = some 0 := by
  constructor
  · have h : attrTarget (some "abc") = none := by decide
    rw [h]
    exact countUpJS_none 200 (some 0)
  · have h200 : (200 : ℕ) = 199 + 1 := rfl
    rw [h200, countUpJS_step]
    norm_num

/-! ## Active-navigation highlighting (`initNavigation.updateActiveNav`)

`const scrollPos = window.scrollY + 100;
 sections.forEach(section => {
   if (scrollPos >= sectionTop && scrollPos < sectionTop + sectionHeight) {
     navLinks.forEach(link => {
       link.classList.remove('active');
       if (link.getAttribute('href') === '#' + sectionId)
         link.classList.add('active'); }); } });` -/

/-- A navigation link: its `href` attribute and whether it carries `active`. -/
structure NavLink where
  href : String
  active : Bool
deriving DecidableEq

/-- A page section: its `id`, `offsetTop` and `offsetHeight`. -/
structure Sect where
  id : String
  top : ℤ
  height : ℤ
deriving DecidableEq

/-- Body of the per-section loop: if the adjusted position falls inside the
section, every link's `active` class is recomputed (removed, then added back
exactly on links whose `href` equals `'#' + id`); otherwise untouched. -/
def processSection (pos : ℤ) (links : List NavLink) (s : Sect) : List NavLink :=
  if s.top ≤ pos ∧ pos < s.top + s.height then
    links.map fun l => ⟨l.href, l.href == "#" ++ s.id⟩
  else links

/-- `updateActiveNav`: adjusted position `scrollY + 100`, then the loop over
all sections in document order. -/
def updateActiveNav (scrollY : ℤ) (sections : List Sect) (links : List NavLink) :
    List NavLink :=
  sections.foldl (processSection (scrollY + 100)) links

/-- Number of links currently carrying the `active` class. -/
def countActiveLinks (links : List NavLink) : ℕ := links.countP fun l => l.active

/-- `processSection` never changes any `href`, so any count over hrefs is
preserved. -/
theorem processSection_countP (pos : ℤ) (links : List NavLink) (s : Sect)
    (target : String) :
    (processSection pos links s).countP (fun l => l.href == target)
      = links.countP fun l => l.href == target := by
  unfold processSection
  split
  · rw [List.countP_map]
    rfl
  · rfl

/-- One pass of `processSection` keeps the active count at most one, provided
at most one link matches the section's href. -/
theorem countActive_processSection (pos : ℤ) (links : List NavLink) (s : Sect)
    (h1 : countActiveLinks links ≤ 1)
    (h2 : links.countP (fun l => l.href == "#" ++ s.id) ≤ 1) :
    countActiveLinks (processSection pos links s) ≤ 1 := by
  unfold processSection countActiveLinks
  split
  · rw [List.countP_map]
    exact h2
  · exact h1

theorem nav_atMostOne_aux (pos : ℤ) (sections : List Sect) :
    ∀ links : List NavLink, countActiveLinks links ≤ 1 →
      (∀ s ∈ sections, links.countP (fun l => l.href == "#" ++ s.id) ≤ 1) →
      countActiveLinks (sections.foldl (processSection pos) links) ≤ 1 := by
  induction sections with
  | nil =>
    intro links h1 _
    simpa using h1
  | cons s ss ih =>
    intro links h1 h2
    rw [List.foldl_cons]
    apply ih
    · exact countActive_processSection pos links s h1 (h2 s (List.mem_cons_self s ss))
    · intro s' hs'
      rw [processSection_countP]
      exact h2 s' (List.mem_cons_of_mem s hs')

/-- C2: if at most one link is active before the handler runs and each section
has at most one matching link, then after `updateActiveNav` at most one
navigation link carries the `active` class, for every scroll offset. -/
theorem updateActiveNav_at_most_one_active (scrollY : ℤ) (sections : List Sect)
    (links : List NavLink) (h1 : countActiveLinks links ≤ 1)
    (h2 : ∀ s ∈ sections, links.countP (fun l => l.href == "#" ++ s.id) ≤ 1) :
    countActiveLinks (updateActiveNav scrollY sections links) ≤ 1 :=
  nav_atMostOne_aux (scrollY + 100) sections links h1 h2

theorem updateActiveNav_at_most_one_active_witness :
    countActiveLinks (updateActiveNav 750 [Sect.mk "home" 0 800, Sect.mk "about" 800 600]
      [NavLink.mk "#home" false, NavLink.mk "#about" true]) ≤ 1 :=
  updateActiveNav_at_most_one_active 750 _ _ (by decide) (by decide)

/-- C3 counterexample: one section `home` spanning `[0, 800)` with its link
currently active; scroll offset 800 gives adjusted position 900, inside no
section, yet after the handler runs the link is still active, not cleared. -/
theorem updateActiveNav_no_match_cex :
    updateActiveNav 800 [Sect.mk "home" 0 800] [NavLink.mk "#home" true]
        = [NavLink.mk "#home" true]
      ∧ countActiveLinks (updateActiveNav 800 [Sect.mk "home" 0 800]
          [NavLink.mk "#home" true]) ≠ 0 := by
  constructor
  · decide
  · decide

theorem nav_noMatch_aux (pos : ℤ) (sections : List Sect) :
    (∀ s ∈ sections, ¬ (s.top ≤ pos ∧ pos < s.top + s.height)) →
    ∀ links : List NavLink, sections.foldl (processSection pos) links = links := by
  induction sections with
  | nil =>
    intro _ links
    rfl
  | cons s ss ih =>
    intro h links
    rw [List.foldl_cons]
    have hs : processSection pos links s = links := by
      unfold processSection
      rw [if_neg (h s (List.mem_cons_self s ss))]
    rw [hs]
    exact ih (fun s' hs' => h s' (List.mem_cons_of_mem s hs')) links

/-- C3 (amended): when the adjusted position lies in no section's interval,
the handler leaves every link exactly as it was — in particular a previously
active link stays active; it is not cleared. -/
theorem updateActiveNav_no_match_unchanged (scrollY : ℤ) (sections : List Sect)
    (links : List NavLink)
    (h : ∀ s ∈ sections, ¬ (s.top ≤ scrollY + 100 ∧ scrollY + 100 < s.top + s.height)) :
    updateActiveNav scrollY sections links = links :=
  nav_noMatch_aux (scrollY + 100) sections h links

theorem updateActiveNav_no_match_unchanged_witness :
    updateActiveNav 900 [Sect.mk "home" 0 800] [NavLink.mk "#home" true]
      = [NavLink.mk "#home" true] :=
  updateActiveNav_no_match_unchanged 900 _ _ (by decide)

/-! ## Header background opacity (`handleScroll`)

`const opacity = Math.min(scrollY / 100, 1);
 nav.style.backgroundColor = 'rgba(10, 10, 15, ' + (0.8 + opacity * 0.2) + ')';` -/

/-- The alpha channel written to the nav bar's background at scroll offset
`s`: `0.8 + min(s / 100, 1) * 0.2`. -/
def headerAlpha (s : ℚ) : ℚ := 8/10 + min (s / 100) 1 * (2/10)

/-- C4: for every non-negative scroll offset, the header background opacity
equals `base + scaleFactor * min(s / 100, 1)` with base `0.8` and scale
`0.2`, lies in `[0.8, 1]`, and is monotonically non-decreasing. -/
theorem headerAlpha_formula_bounds_mono (s s' : ℚ) (hs : 0 ≤ s) (hss' : s ≤ s') :
    headerAlpha s = 8/10 + (2/10) * min (s / 100) 1
      ∧ 8/10 ≤ headerAlpha s
      ∧ headerAlpha s ≤ 8/10 + 2/10
      ∧ headerAlpha s ≤ headerAlpha s' := by
  refine ⟨by rw [headerAlpha, mul_comm], ?_, ?_, ?_⟩
  · have h0 : (0 : ℚ) ≤ min (s / 100) 1 :=
      le_min (by positivity) (by norm_num)
    rw [headerAlpha]
    nlinarith
  · have h1 : min (s / 100) 1 ≤ 1 := min_le_right _ _
    rw [headerAlpha]
    nlinarith
  · have hmin : min (s / 100) 1 ≤ min (s' / 100) 1 := by
      apply min_le_min _ (le_refl 1)
      apply div_le_div_of_nonneg_right hss' -- may need adjusting
      norm_num
    rw [headerAlpha, headerAlpha]
    nlinarith

theorem headerAlpha_formula_bounds_mono_witness :
    0 ≤ (50 : ℚ) ∧ (50 : ℚ) ≤ 300
      ∧ (headerAlpha 50 = 8/10 + (2/10) * min ((50 : ℚ) / 100) 1
          ∧ 8/10 ≤ headerAlpha 50
          ∧ headerAlpha 50 ≤ 8/10 + 2/10
          ∧ headerAlpha 50 ≤ headerAlpha 300) :=
  ⟨by norm_num, by norm_num,
    headerAlpha_formula_bounds_mono 50 300 (by norm_num) (by norm_num)⟩

/-! ## Skill-card flip toggle (two variants)

Plain variant: `card.addEventListener('click', () =>
  card.classList.toggle('flipped'));`

Breakpoint-gated variant: `card.addEventListener('click', (e) => {
  if (window.innerWidth <= 768) card.classList.toggle('flipped'); });` -/

/-- Plain variant: every click toggles the `flipped` class. -/
def clickFlip (flipped : Bool) : Bool := !flipped

/-- Breakpoint-gated variant: the click toggles only when
`window.innerWidth <= 768`. -/
def clickFlipGated (w : ℕ) (flipped : Bool) : Bool :=
  if w ≤ 768 then !flipped else flipped

/-- C5: two consecutive click-toggles return a skill card's flip state to
its original value, in both variants (same viewport width, at or below the
breakpoint for the gated variant). -/
theorem clickFlip_involution (w : ℕ) (f : Bool) (hw : w ≤ 768) :
    clickFlip (clickFlip f) = f ∧ clickFlipGated w (clickFlipGated w f) = f := by
  constructor
  · cases f <;> rfl
  · rw [clickFlipGated, clickFlipGated, if_pos hw, if_pos hw]
    cases f <;> rfl

theorem clickFlip_involution_witness :
    (400 : ℕ) ≤ 768
      ∧ (clickFlip (clickFlip true) = true
          ∧ clickFlipGated 400 (clickFlipGated 400 true) = true) :=
  ⟨by norm_num, clickFlip_involution 400 true (by norm_num)⟩

/-! ## Resize handlers (desktop width clears mobile-only state)

Variant file: `window.addEventListener('resize', () => {
  if (window.innerWidth > 768)
    skillCards.forEach(card => card.classList.remove('flipped')); });`

`handleResize` in `script.js`: `if (window.innerWidth > 768) {
  navToggle?.classList.remove('active'); navMenu?.classList.remove('active'); }` -/

/-- The resize handler of the gated variant: above the breakpoint, remove
`flipped` from every skill card. -/
def clearFlippedOnResize (w : ℕ) (cards : List Bool) : List Bool :=
  if 768 < w then cards.map fun _ => false else cards

/-- The mobile navigation state: whether `.nav-toggle` and `.nav-menu`
carry the `active` class. -/
structure NavUI where
  toggleActive : Bool
  menuActive : Bool
deriving DecidableEq

/-- `handleResize`: above the breakpoint, close the mobile menu. -/
def handleResize (w : ℕ) (nav : NavUI) : NavUI :=
  if 768 < w then ⟨false, false⟩ else nav

/-- C6: whenever a resize fires with viewport width above 768, afterwards
no skill card carries `flipped` and neither the nav toggle nor the nav menu
carries `active`, whatever the state before. -/
theorem resize_clears_mobile_state (w : ℕ) (cards : List Bool) (nav : NavUI)
    (hw : 768 < w) :
    (∀ c ∈ clearFlippedOnResize w cards, c = false)
      ∧ (handleResize w nav).toggleActive = false
      ∧ (handleResize w nav).menuActive = false := by
  refine ⟨?_, ?_, ?_⟩
  · intro c hc
    rw [clearFlippedOnResize, if_pos hw] at hc
    rcases List.mem_map.mp hc with ⟨b, _, hb⟩
    exact hb.symm
  · rw [handleResize, if_pos hw]
  · rw [handleResize, if_pos hw]

theorem resize_clears_mobile_state_witness :
    (768 : ℕ) < 1024
      ∧ ((handleResize 1024 ⟨true, true⟩).toggleActive = false
          ∧ (handleResize 1024 ⟨true, true⟩).menuActive = false)
      ∧ clearFlippedOnResize 1024 [true, false, true] = [false, false, false] :=
  ⟨by norm_num,
    ⟨(resize_clears_mobile_state 1024 [true, false, true] ⟨true, true⟩ (by norm_num)).2.1,
      (resize_clears_mobile_state 1024 [true, false, true] ⟨true, true⟩ (by norm_num)).2.2⟩,
    by decide⟩

/-! ## Skills category tabs (`initSkillsTabs`)

`tab.addEventListener('click', () => {
   const targetCategory = tab.getAttribute('data-category');
   categoryTabs.forEach(t => t.classList.remove('active'));
   tab.classList.add('active');
   skillGroups.forEach(group => {
     group.classList.remove('active');
     if (group.getAttribute('data-category') === targetCategory)
       setTimeout(() => { group.classList.add('active'); ... }, 150); }); });`

State is modelled after the 150 ms timeout has fired, i.e. the settled
outcome of one click. -/

/-- A category tab: its `data-category` attribute and `active` class. -/
structure Tab where
  cat : String
  active : Bool
deriving DecidableEq

/-- A skill group: its `data-category` attribute and `active` class. -/
structure SkillGroup where
  cat : String
  active : Bool
deriving DecidableEq

/-- `categoryTabs.forEach(t => t.classList.remove('active'))`. -/
def deactTabs (ts : List Tab) : List Tab := ts.map fun t => ⟨t.cat, false⟩

/-- The effect of the click handler of the tab at position `i` on the tab
list: remove `active` everywhere, then add it on the clicked tab. -/
def clickTabs : List Tab → ℕ → List Tab
  | [], _ => []
  | t :: ts, 0 => ⟨t.cat, true⟩ :: deactTabs ts
  | t :: ts, n + 1 => ⟨t.cat, false⟩ :: clickTabs ts n

/-- The settled effect on the skill groups: `active` is removed everywhere
and re-added (after the timeout) exactly on groups whose `data-category`
equals the clicked tab's. -/
def switchGroups (gs : List SkillGroup) (target : String) : List SkillGroup :=
  gs.map fun g => ⟨g.cat, g.cat == target⟩

/-- One full click on the tab at position `i` (the handler is installed on
each tab of the list, so `i` indexes an existing tab). -/
def clickCategoryTab (tabs : List Tab) (groups : List SkillGroup) (i : ℕ) :
    List Tab × List SkillGroup :=
  match tabs.get? i with
  | none => (tabs, groups)
  | some t => (clickTabs tabs i, switchGroups groups t.cat)

/-- Number of tabs currently carrying the `active` class. -/
def countActiveTabs (ts : List Tab) : ℕ := ts.countP fun t => t.active

theorem countActiveTabs_deact (ts : List Tab) : countActiveTabs (deactTabs ts) = 0 := by
  induction ts with
  | nil => rfl
  | cons t ts ih =>
    simp only [deactTabs, countActiveTabs, List.map_cons, List.countP_cons] at *
    simp [ih]

theorem countActiveTabs_clickTabs (ts : List Tab) (i : ℕ) (hi : i < ts.length) :
    countActiveTabs (clickTabs ts i) = 1 := by
  induction ts generalizing i with
  | nil => simp at hi
  | cons t ts ih =>
    cases i with
    | zero =>
      simpa [clickTabs, countActiveTabs, List.countP_cons] using countActiveTabs_deact ts
    | succ n =>
      have hn : n < ts.length := by simpa using hi
      simpa [clickTabs, countActiveTabs, List.countP_cons] using ih n hn

theorem deactTabs_get (ts : List Tab) (j : ℕ) :
    (deactTabs ts).get? j = (ts.get? j).map fun t => ⟨t.cat, false⟩ := by
  rw [deactTabs]
  induction ts generalizing j with
  | nil => cases j <;> rfl
  | cons t ts ih =>
    cases j with
    | zero => rfl
    | succ m => exact ih m

theorem clickTabs_get (ts : List Tab) (i j : ℕ) :
    (clickTabs ts i).get? j = (ts.get? j).map fun t => ⟨t.cat, decide (j = i)⟩ := by
  induction ts generalizing i j with
  | nil => cases i <;> rfl
  | cons t ts ih =>
    cases i with
    | zero =>
      cases j with
      | zero => rfl
      | succ m =>
        rw [clickTabs]
        show (deactTabs ts).get? m = _
        rw [deactTabs_get]
        simp
    | succ n =>
      cases j with
      | zero => rfl
      | succ m =>
        rw [clickTabs]
        show (clickTabs ts n).get? m = _
        rw [ih n m]
        simp [Nat.succ_inj]

/-- C7: clicking the category tab at position `i` leaves exactly one tab
active — position `j` is active iff `j = i` — and activates exactly the
skill groups whose `data-category` matches the clicked tab's. -/
theorem clickCategoryTab_radio (tabs : List Tab) (groups : List SkillGroup) (i : ℕ)
    (t : Tab) (ht : tabs.get? i = some t) :
    countActiveTabs (clickCategoryTab tabs groups i).1 = 1
      ∧ (∀ j u, ((clickCategoryTab tabs groups i).1).get? j = some u
          → (u.active = true ↔ j = i))
      ∧ ∀ g ∈ (clickCategoryTab tabs groups i).2, g.active = (g.cat == t.cat) := by
  have hi : i < tabs.length := List.get?_eq_some.mp ht |>.1
  have hfst : (clickCategoryTab tabs groups i).1 = clickTabs tabs i := by
    rw [clickCategoryTab, ht]
  have hsnd : (clickCategoryTab tabs groups i).2 = switchGroups groups t.cat := by
    rw [clickCategoryTab, ht]
  refine ⟨?_, ?_, ?_⟩
  · rw [hfst]
    exact countActiveTabs_clickTabs tabs i hi
  · intro j u hu
    rw [hfst, clickTabs_get] at hu
    rcases Option.map_eq_some'.mp hu with ⟨v, _, hv⟩
    rw [← hv]
    simp
  · intro g hg
    rw [hsnd] at hg
    rcases List.mem_map.mp hg with ⟨g0, _, hg0⟩
    rw [← hg0]

theorem clickCategoryTab_radio_witness :
    ([Tab.mk "frontend" false, Tab.mk "data" true].get? 0 = some (Tab.mk "frontend" false))
      ∧ countActiveTabs (clickCategoryTab [Tab.mk "frontend" false, Tab.mk "data" true]
          [SkillGroup.mk "frontend" false, SkillGroup.mk "data" true] 0).1 = 1 :=
  ⟨by decide,
    (clickCategoryTab_radio [Tab.mk "frontend" false, Tab.mk "data" true]
      [SkillGroup.mk "frontend" false, SkillGroup.mk "data" true] 0
      (Tab.mk "frontend" false) (by decide)).1⟩

/-! ## Particle background (`ParticleBackground`)

`createParticles`: `positions[i3 + k] = (Math.random() - 0.5) * 10;` for the
three coordinates of each of the 100 particles — set once, at initialization.

`animate`: `this.particles.rotation.x += 0.0005;
            this.particles.rotation.y += 0.001;
            this.particles.rotation.x += this.mouse.y * 0.0002;
            this.particles.rotation.y += this.mouse.x * 0.0002;`
— the per-frame step mutates only the rotation angles of the particle
cloud; the position buffer is never touched after initialization. -/

/-- A particle's position in the Three.js scene's world coordinates. -/
structure Particle3 where
  x : ℚ
  y : ℚ
  z : ℚ
deriving DecidableEq

/-- `createParticles` for one particle: each coordinate is
`(Math.random() - 0.5) * 10` with `random ∈ [0, 1)`. -/
def createParticle (r1 r2 r3 : ℚ) : Particle3 :=
  ⟨(r1 - 1/2) * 10, (r2 - 1/2) * 10, (r3 - 1/2) * 10⟩

/-- The particle subsystem's per-frame state: the cloud's two rotation
angles, the particle position buffer, and the last mouse position. -/
structure PBState where
  rotX : ℚ
  rotY : ℚ
  positions : List Particle3
  mouseX : ℚ
  mouseY : ℚ
deriving DecidableEq

/-- One frame of `animate`: only the rotation angles change. -/
def animateStep (st : PBState) : PBState :=
  ⟨st.rotX + 5/10000 + st.mouseY * (2/10000),
    st.rotY + 1/1000 + st.mouseX * (2/10000),
    st.positions, st.mouseX, st.mouseY⟩

/-- Each world coordinate of a particle lies in `[-5, 5]`. -/
def inCube (p : Particle3) : Prop :=
  -5 ≤ p.x ∧ p.x ≤ 5 ∧ -5 ≤ p.y ∧ p.y ≤ 5 ∧ -5 ≤ p.z ∧ p.z ≤ 5

theorem animateStep_positions (st : PBState) (n : ℕ) :
    (animateStep^[n] st).positions = st.positions := by
  induction n with
  | zero => rfl
  | succ m ih =>
    rw [Function.iterate_succ_apply', animateStep]
    exact ih

/-- C9 (amended): particle positions are fixed at initialization with every
coordinate in `[-5, 5]` (from `(random - 0.5) * 10`), and the per-frame step
changes only the rotation angles, so for all frames the position buffer is
exactly the initial one and stays inside the cube `[-5, 5]³` — not inside
`[0, canvasWidth] × [0, canvasHeight]`, and with no velocity or reflection. -/
theorem particles_fixed_in_cube (st : PBState) (n : ℕ) (r1 r2 r3 : ℚ)
    (h1 : 0 ≤ r1) (h2 : r1 < 1) (h3 : 0 ≤ r2) (h4 : r2 < 1)
    (h5 : 0 ≤ r3) (h6 : r3 < 1) (hst : ∀ p ∈ st.positions, inCube p) :
    (animateStep^[n] st).positions = st.positions
      ∧ (∀ p ∈ (animateStep^[n] st).positions, inCube p)
      ∧ inCube (createParticle r1 r2 r3) := by
  refine ⟨animateStep_positions st n, ?_, ?_⟩
  · intro p hp
    rw [animateStep_positions st n] at hp
    exact hst p hp
  · refine ⟨?_, ?_, ?_, ?_, ?_, ?_⟩ <;> simp only [createParticle] <;> nlinarith

theorem particles_fixed_in_cube_witness :
    (animateStep^[4] ⟨0, 0, [createParticle (1/4) (1/2) (9/10)], 0, 0⟩).positions
        = (PBState.mk 0 0 [createParticle (1/4) (1/2) (9/10)] 0 0).positions
      ∧ inCube (createParticle (1/4) (1/2) (9/10)) :=
  ⟨(particles_fixed_in_cube ⟨0, 0, [createParticle (1/4) (1/2) (9/10)], 0, 0⟩ 4
      (1/4) (1/2) (9/10) (by norm_num) (by norm_num) (by norm_num) (by norm_num)
      (by norm_num) (by norm_num)
      (by intro p hp; simp at hp; subst hp; refine ⟨?_, ?_, ?_, ?_, ?_, ?_⟩ <;> norm_num [createParticle])).1,
    (particles_fixed_in_cube ⟨0, 0, [createParticle (1/4) (1/2) (9/10)], 0, 0⟩ 4
      (1/4) (1/2) (9/10) (by norm_num) (by norm_num) (by norm_num) (by norm_num)
      (by norm_num) (by norm_num)
      (by intro p hp; simp at hp; subst hp; refine ⟨?_, ?_, ?_, ?_, ?_, ?_⟩ <;> norm_num [createParticle])).2.2⟩

/-- C9 counterexample: a particle created with all three random draws equal
to 0 sits at `(-5, -5, -5)`; after a frame of `animate` it is still there,
and its x-coordinate is negative — outside `[0, w]` for any canvas width. -/
theorem particles_out_of_canvas_cex :
    (animateStep^[1] ⟨0, 0, [createParticle 0 0 0], 0, 0⟩).positions
        = [createParticle 0 0 0]
      ∧ (createParticle 0 0 0).x = -5
      ∧ ¬ (0 ≤ (createParticle 0 0 0).x ∧ (createParticle 0 0 0).x ≤ 1024) := by
  refine ⟨rfl, by norm_num [createParticle], ?_⟩
  intro h
  have := h.1
  norm_num [createParticle] at this

/-! ## Typing-text rotation (`startTypingAnimation`)

`const showText = (index) => {
   textLines.forEach(line => line.classList.remove('active'));
   if (textLines[index]) textLines[index].classList.add('active'); };
 showText(0);
 setInterval(() => {
   this.typingIndex = (this.typingIndex + 1) % textLines.length;
   showText(this.typingIndex); }, 3000);` -/

/-- `showText index`: remove `active` from every line, then add it on the
line at `index` when that line exists. -/
def showText : ℕ → List Bool → List Bool
  | _, [] => []
  | 0, _ :: ls => true :: ls.map fun _ => false
  | n + 1, _ :: ls => false :: showText n ls

/-- One tick of the 3-second interval: advance the rotation index modulo the
number of lines, then re-show. The state is the current index together with
the `active` flag of each text line. -/
def typingTick (idx : ℕ) (lines : List Bool) : ℕ × List Bool :=
  ((idx + 1) % lines.length, showText ((idx + 1) % lines.length) lines)

theorem showText_count (i : ℕ) (ls : List Bool) (hi : i < ls.length) :
    (showText i ls).count true = 1 := by
  induction ls generalizing i with
  | nil => simp at hi
  | cons b ls ih =>
    cases i with
    | zero => simp [showText, List.count_cons, List.count_replicate]
    | succ n =>
      have hn : n < ls.length := by simpa using hi
      simpa [showText, List.count_cons] using ih n hn

theorem showText_get (i : ℕ) (ls : List Bool) (hi : i < ls.length) :
    (showText i ls).get? i = some true := by
  induction ls generalizing i with
  | nil => simp at hi
  | cons b ls ih =>
    cases i with
    | zero => rfl
    | succ n =>
      have hn : n < ls.length := by simpa using hi
      show (showText n ls).get? n = some true
      exact ih n hn

/-- C10: given at least one text line, each interval tick advances the
rotation index modulo the number of lines, and afterwards exactly one line
carries the `active` class, namely the line at the new index. -/
theorem typingTick_one_active (idx : ℕ) (lines : List Bool)
    (h : 0 < lines.length) :
    (typingTick idx lines).1 = (idx + 1) % lines.length
      ∧ (typingTick idx lines).2.count true = 1
      ∧ (typingTick idx lines).2.get? (typingTick idx lines).1 = some true := by
  have hlt : (idx + 1) % lines.length < lines.length := Nat.mod_lt _ h
  exact ⟨rfl, showText_count _ lines hlt, showText_get _ lines hlt⟩

theorem typingTick_one_active_witness :
    0 < [true, false, false].length
      ∧ ((typingTick 0 [true, false, false]).1 = (0 + 1) % [true, false, false].length
          ∧ (typingTick 0 [true, false, false]).2.count true = 1
          ∧ (typingTick 0 [true, false, false]).2.get? (typingTick 0 [true, false, false]).1
              = some true) :=
  ⟨by decide, typingTick_one_active 0 [true, false, false] (by decide)⟩
